import Mathlib

/-!
Verification of the HP-model protein-folding toy program
(`src/protein-folding-tutorial.ipynb`).

The notebook's cell-10 contains the greedy optimizer loop; the
`AminoAcidChain` class it drives (`move`, `measure_energy`, the cached
`prev_energy`) lives in `proteinfolding_classes.py`, which is not part of
this repository.  We therefore embed the loop faithfully from cell-10 and
model the missing pieces from the specification:

* the energy evaluator `measure_energy` is modelled from spec section 4.1;
* the move generator `move` is modelled as an oracle stream of outcomes
  (`MoveResult`): each call either fails or yields a candidate coordinate
  array, matching the spec's output contract in section 4.2.

The loop itself (guard `step < num_steps`, retry on failed move, strict
improvement acceptance, `energy_change[step]` recording, `step += 1`) is a
line-by-line embedding of cell-10.
-/

/-- The mutable state of the `AminoAcidChain` object that the optimizer
loop reads and writes: hydrophobicity tags (`true` marks an H residue,
fixed after construction), the committed coordinate arrays `x`, `y`, and
the cached committed energy `prev_energy`. -/
structure AminoAcidChain where
  h : List Bool
  x : List Int
  y : List Int
  prev_energy : Nat
  deriving DecidableEq, Repr

/-- Outcome of one call to `aa.move()`: either failure (`success == False`
in the notebook), or success together with the candidate coordinate arrays
`temp_x`, `temp_y` that the call leaves on the object. -/
inductive MoveResult where
  | fail : MoveResult
  | success (temp_x temp_y : List Int) : MoveResult
  deriving DecidableEq, Repr

/-- The four lattice-adjacent offsets (right, left, up, down). -/
def neighborOffsets : List (Int × Int) := [(1, 0), (-1, 0), (0, 1), (0, -1)]

/-- Modelled from the spec: whether the grid cell `(cx, cy)` is occupied by
a hydrophobic residue of the chain described by tags `h` and coordinates
`x`, `y` (spec section 4.1: an adjacent cell occupied by another H residue
is the one favorable case).  The implementation of `measure_energy` is in
`proteinfolding_classes.py`, outside this repository. -/
def occupiedByH (h : List Bool) (x y : List Int) (cx cy : Int) : Bool :=
  (List.zip h (List.zip x y)).any fun r => r.1 && (r.2.1 == cx) && (r.2.2 == cy)

/-- Modelled from the spec: the energy evaluator of section 4.1.  For every
hydrophobic residue, each of its four lattice-adjacent cells counts one
unfavorable contact unless that cell is occupied by another H residue
(cells holding a P residue and unoccupied "water" cells both count).  The
real implementation lives in `proteinfolding_classes.py`, outside this
repository. -/
def measure_energy (h : List Bool) (x y : List Int) : Nat :=
  ((List.zip h (List.zip x y)).map fun r =>
    if r.1 then
      neighborOffsets.countP fun d => !occupiedByH h x y (r.2.1 + d.1) (r.2.2 + d.2)
    else 0).sum

/-- The state carried across iterations of the cell-10 loop: the chain
object `aa`, the loop counter `step`, and the `energy_change` trace array
(created as `np.zeros(num_steps)`; its entries record committed energies,
which are natural numbers).  The extra field `writes` is a verification
ghost: it records, in order, each index at which the loop performs the
assignment `energy_change[step] = aa.prev_energy`. -/
structure LoopState where
  aa : AminoAcidChain
  step : Nat
  energy_change : List Nat
  writes : List Nat
  deriving DecidableEq, Repr

/-- One pass through the body of the cell-10 `while` loop, given the
outcome `mv` of the `aa.move()` call.  On failure nothing happens (the
loop retries).  On success the candidate energy `temp_energy` is computed
by `measure` (the `measure_energy` method), the candidate is committed iff
`temp_energy - prev_energy < 0`, then `energy_change[step]` is set to the
(possibly updated) `prev_energy` and `step` is incremented. -/
def loopIter (measure : List Bool → List Int → List Int → Nat)
    (st : LoopState) (mv : MoveResult) : LoopState :=
  match mv with
  | .fail => st
  | .success temp_x temp_y =>
    let temp_energy := measure st.aa.h temp_x temp_y
    let aa' :=
      if (temp_energy : Int) - (st.aa.prev_energy : Int) < 0 then
        { h := st.aa.h, x := temp_x, y := temp_y, prev_energy := temp_energy }
      else
        st.aa
    { aa := aa'
      step := st.step + 1
      energy_change := st.energy_change.set st.step aa'.prev_energy
      writes := st.writes ++ [st.step] }

/-- The cell-10 `while step < num_steps` loop, driven by the stream
`events` of `aa.move()` outcomes.  Each iteration first checks the guard;
if it holds, one event is consumed and the body `loopIter` runs.  The
finite stream plays the role of fuel: a real run in which the generator
succeeds often enough corresponds to a stream holding enough successes. -/
def runLoop (measure : List Bool → List Int → List Int → Nat) (num_steps : Nat) :
    List MoveResult → LoopState → LoopState
  | [], st => st
  | mv :: rest, st =>
    if st.step < num_steps then
      runLoop measure num_steps rest (loopIter measure st mv)
    else st

/-- The state just before the loop starts: `step = 0`,
`energy_change = np.zeros(num_steps)`, no writes performed yet. -/
def initState (num_steps : Nat) (aa : AminoAcidChain) : LoopState :=
  { aa := aa
    step := 0
    energy_change := List.replicate num_steps 0
    writes := [] }

/-- Sanity check from the spec's Example 1: two adjacent H residues, each
with three non-H neighbors, give energy 6. -/
example : measure_energy [true, true] [0, 1] [0, 0] = 6 := by decide

/-- Sanity check: a lone H residue surrounded by water has four
unfavorable contacts. -/
example : measure_energy [true] [0] [0] = 4 := by decide

/-! ### Basic lemmas about one loop iteration -/

/-- A failed proposal is a pure retry: the loop body leaves the whole state
untouched. -/
theorem loopIter_fail (measure : List Bool → List Int → List Int → Nat)
    (st : LoopState) : loopIter measure st .fail = st := rfl

/-- The strict-improvement test of cell-10, `temp_energy - prev_energy < 0`
over the integers, is equivalent to a strict decrease of the energy. -/
theorem accept_cond_iff (temp_energy prev_energy : Nat) :
    ((temp_energy : Int) - (prev_energy : Int) < 0) ↔ temp_energy < prev_energy := by
  omega

/-- The committed energy never increases across one loop iteration. -/
theorem loopIter_prev_energy_le (measure : List Bool → List Int → List Int → Nat)
    (st : LoopState) (mv : MoveResult) :
    (loopIter measure st mv).aa.prev_energy ≤ st.aa.prev_energy := by
  cases mv with
  | fail => exact le_refl _
  | success tx ty =>
    simp only [loopIter]
    split
    · next hacc => exact le_of_lt ((accept_cond_iff _ _).mp hacc)
    · exact le_refl _

/-- Any all-failure event stream leaves the loop state unchanged: the loop
retries forever without progress or any other effect. -/
theorem runLoop_all_fail (measure : List Bool → List Int → List Int → Nat)
    (num_steps : Nat) (events : List MoveResult)
    (hfail : ∀ e ∈ events, e = MoveResult.fail) (st : LoopState) :
    runLoop measure num_steps events st = st := by
  induction events generalizing st with
  | nil => rfl
  | cons mv rest ih =>
    have hmv : mv = MoveResult.fail := hfail mv (List.mem_cons_self _ _)
    subst hmv
    simp only [runLoop, loopIter_fail]
    split
    · exact ih (fun e he => hfail e (List.mem_cons_of_mem _ he)) st
    · rfl

/-! ### Claim theorems (part 1) -/

/-- C1: in each iteration that evaluates a structurally valid candidate,
the candidate is committed (its coordinates become the chain's coordinates
and its energy becomes the cached energy) precisely when its energy is
strictly below the committed energy; when the candidate's energy is equal
or greater, the committed chain object is left exactly as it was. -/
theorem accept_iff_strict_improvement
    (measure : List Bool → List Int → List Int → Nat)
    (st : LoopState) (temp_x temp_y : List Int) :
    (measure st.aa.h temp_x temp_y < st.aa.prev_energy →
      (loopIter measure st (.success temp_x temp_y)).aa =
        { h := st.aa.h, x := temp_x, y := temp_y,
          prev_energy := measure st.aa.h temp_x temp_y }) ∧
    (st.aa.prev_energy ≤ measure st.aa.h temp_x temp_y →
      (loopIter measure st (.success temp_x temp_y)).aa = st.aa) := by
  constructor
  · intro hlt
    simp only [loopIter]
    split
    · rfl
    · next hrej => exact absurd ((accept_cond_iff _ _).mpr hlt) hrej
  · intro hge
    simp only [loopIter]
    split
    · next hacc => exact absurd ((accept_cond_iff _ _).mp hacc) (not_lt.mpr hge)
    · rfl

/-- Witness for C1: a concrete strictly-improving candidate is committed. -/
theorem accept_iff_strict_improvement_witness :
    (loopIter measure_energy
      { aa := { h := [true, true], x := [0, 3], y := [0, 0], prev_energy := 8 },
        step := 0, energy_change := [0, 0], writes := [] }
      (.success [0, 1] [0, 0])).aa =
      { h := [true, true], x := [0, 1], y := [0, 0],
        prev_energy := measure_energy [true, true] [0, 1] [0, 0] } :=
  (accept_iff_strict_improvement measure_energy
    { aa := { h := [true, true], x := [0, 3], y := [0, 0], prev_energy := 8 },
      step := 0, energy_change := [0, 0], writes := [] }
    [0, 1] [0, 0]).1 (by decide)

/-- C3: the step counter grows by exactly one in every iteration whose
proposal succeeded (whatever the accept/reject outcome), and a failed
proposal changes nothing at all — in particular it consumes no step. -/
theorem step_counter_discipline :
    (∀ (measure : List Bool → List Int → List Int → Nat) (st : LoopState),
      loopIter measure st .fail = st) ∧
    (∀ (measure : List Bool → List Int → List Int → Nat) (st : LoopState)
      (temp_x temp_y : List Int),
      (loopIter measure st (.success temp_x temp_y)).step = st.step + 1) :=
  ⟨fun _ _ => rfl, fun _ _ _ _ => rfl⟩

/-- C5: when a valid candidate is rejected (its energy is not strictly
smaller than the committed energy), the committed chain — its x array, its
y array and its cached energy — is identical before and after the
iteration. -/
theorem rejected_candidate_chain_unchanged
    (measure : List Bool → List Int → List Int → Nat)
    (st : LoopState) (temp_x temp_y : List Int)
    (hrej : st.aa.prev_energy ≤ measure st.aa.h temp_x temp_y) :
    (loopIter measure st (.success temp_x temp_y)).aa = st.aa := by
  simp only [loopIter]
  split
  · next hacc => exact absurd ((accept_cond_iff _ _).mp hacc) (by omega)
  · rfl

/-- Witness for C5: a concrete non-improving candidate leaves the chain
untouched. -/
theorem rejected_candidate_chain_unchanged_witness :
    (loopIter measure_energy
      { aa := { h := [true, true], x := [0, 1], y := [0, 0], prev_energy := 6 },
        step := 0, energy_change := [0, 0], writes := [] }
      (.success [0, 3] [0, 0])).aa =
      { h := [true, true], x := [0, 1], y := [0, 0], prev_energy := 6 } :=
  rejected_candidate_chain_unchanged measure_energy
    { aa := { h := [true, true], x := [0, 1], y := [0, 0], prev_energy := 6 },
      step := 0, energy_change := [0, 0], writes := [] }
    [0, 3] [0, 0] (by decide)

/-- C7: with a step budget of zero the loop exits immediately: no proposal
is consumed, nothing is written, and the chain coordinates and cached
energy after the loop are the initial ones. -/
theorem zero_step_budget_noop
    (measure : List Bool → List Int → List Int → Nat)
    (events : List MoveResult) (aa : AminoAcidChain) :
    runLoop measure 0 events (initState 0 aa) = initState 0 aa := by
  cases events with
  | nil => rfl
  | cons mv rest => simp [runLoop, initState]

/-- C8: a chain with no hydrophobic residues has energy zero under the
spec-modelled evaluator, whatever its coordinates. -/
theorem no_H_energy_zero (h : List Bool) (x y : List Int)
    (hno : ∀ b ∈ h, b = false) : measure_energy h x y = 0 := by
  unfold measure_energy
  apply List.sum_eq_zero
  intro e he
  obtain ⟨r, hr, rfl⟩ := List.mem_map.mp he
  obtain ⟨b, p⟩ := r
  have hb : b ∈ h := (List.of_mem_zip hr).1
  rw [hno b hb]
  simp

/-- Witness for C8: an all-polar two-residue chain has energy zero. -/
theorem no_H_energy_zero_witness :
    measure_energy [false, false] [0, 1] [0, 0] = 0 :=
  no_H_energy_zero [false, false] [0, 1] [0, 0] (by decide)

/-! ### Helper lemmas on list indexing -/

/-- Reading back the cell just written by `List.set`. -/
theorem getD_set_self (l : List Nat) (j v : Nat) (hj : j < l.length) :
    (l.set j v).getD j 0 = v := by
  rw [List.getD_eq_getElem?_getD, List.getElem?_set_eq_of_lt v hj]
  rfl

/-- `List.set` leaves every other cell as it was. -/
theorem getD_set_ne (l : List Nat) (i j v : Nat) (hij : i ≠ j) :
    (l.set j v).getD i 0 = l.getD i 0 := by
  rw [List.getD_eq_getElem?_getD, List.getD_eq_getElem?_getD, List.getElem?_set_ne]
  omega

/-- Whether an `aa.move()` call produced a valid candidate. -/
def MoveResult.isSuccess : MoveResult → Bool
  | .fail => false
  | .success _ _ => true

/-! ### The loop invariant -/

/-- Invariant maintained by the cell-10 loop: the step counter never
exceeds the budget, the `energy_change` array keeps its allocated length,
the write log holds exactly the indices `0, …, step - 1` in order, the
committed energy is a lower bound for every recorded entry, the most
recent entry equals the committed energy, and the recorded entries are
non-increasing. -/
def LoopInv (num_steps : Nat) (st : LoopState) : Prop :=
  st.step ≤ num_steps ∧
  st.energy_change.length = num_steps ∧
  st.writes = List.range st.step ∧
  (∀ i, i < st.step → st.aa.prev_energy ≤ st.energy_change.getD i 0) ∧
  (0 < st.step → st.energy_change.getD (st.step - 1) 0 = st.aa.prev_energy) ∧
  (∀ i j, i ≤ j → j < st.step →
    st.energy_change.getD j 0 ≤ st.energy_change.getD i 0)

/-- The fields of the state produced by a successful iteration. -/
theorem loopIter_success_fields (measure : List Bool → List Int → List Int → Nat)
    (st : LoopState) (temp_x temp_y : List Int) :
    (loopIter measure st (.success temp_x temp_y)).step = st.step + 1 ∧
    (loopIter measure st (.success temp_x temp_y)).energy_change =
      st.energy_change.set st.step
        (loopIter measure st (.success temp_x temp_y)).aa.prev_energy ∧
    (loopIter measure st (.success temp_x temp_y)).writes =
      st.writes ++ [st.step] :=
  ⟨rfl, rfl, rfl⟩

/-- The loop body preserves the invariant whenever the guard held. -/
theorem loopIter_inv (measure : List Bool → List Int → List Int → Nat)
    (num_steps : Nat) (st : LoopState) (mv : MoveResult)
    (hstep : st.step < num_steps) (hinv : LoopInv num_steps st) :
    LoopInv num_steps (loopIter measure st mv) := by
  obtain ⟨h1, h2, h3, h4, h5, h6⟩ := hinv
  cases mv with
  | fail => exact ⟨h1, h2, h3, h4, h5, h6⟩
  | success tx ty =>
    obtain ⟨hs, he, hw⟩ := loopIter_success_fields measure st tx ty
    have hlen : st.step < st.energy_change.length := h2 ▸ hstep
    have hple : (loopIter measure st (.success tx ty)).aa.prev_energy ≤
        st.aa.prev_energy := loopIter_prev_energy_le measure st (.success tx ty)
    have hsetself : (loopIter measure st (.success tx ty)).energy_change.getD st.step 0 =
        (loopIter measure st (.success tx ty)).aa.prev_energy := by
      rw [he]; exact getD_set_self _ _ _ hlen
    have hsetne : ∀ i, i ≠ st.step →
        (loopIter measure st (.success tx ty)).energy_change.getD i 0 =
          st.energy_change.getD i 0 := by
      intro i hi
      rw [he]; exact getD_set_ne _ _ _ _ hi
    have hlow : ∀ i, i < st.step + 1 →
        (loopIter measure st (.success tx ty)).aa.prev_energy ≤
          (loopIter measure st (.success tx ty)).energy_change.getD i 0 := by
      intro i hi
      rcases Nat.eq_or_lt_of_le (Nat.le_of_lt_succ hi) with heq | hlt
      · rw [heq, hsetself]
      · rw [hsetne i (Nat.ne_of_lt hlt)]
        exact le_trans hple (h4 i hlt)
    refine ⟨?_, ?_, ?_, ?_, ?_, ?_⟩
    · rw [hs]; exact hstep
    · rw [he, List.length_set]; exact h2
    · rw [hw, hs, h3]; exact (List.range_succ st.step).symm
    · rw [hs]; exact hlow
    · intro _
      rw [hs]
      simpa using hsetself
    · intro i j hij hj
      rw [hs] at hj
      rcases Nat.eq_or_lt_of_le (Nat.le_of_lt_succ hj) with heq | hlt
      · subst heq
        rw [hsetself]
        exact hlow i (Nat.lt_succ_of_le hij)
      · rw [hsetne j (Nat.ne_of_lt hlt), hsetne i (Nat.ne_of_lt (lt_of_le_of_lt hij hlt))]
        exact h6 i j hij hlt

/-- The whole run preserves the invariant. -/
theorem runLoop_inv (measure : List Bool → List Int → List Int → Nat)
    (num_steps : Nat) (events : List MoveResult) :
    ∀ st : LoopState, LoopInv num_steps st →
      LoopInv num_steps (runLoop measure num_steps events st) := by
  induction events with
  | nil => intro st h; exact h
  | cons mv rest ih =>
    intro st h
    simp only [runLoop]
    split
    · next hg => exact ih _ (loopIter_inv measure num_steps st mv hg h)
    · exact h

/-- The initial state satisfies the invariant. -/
theorem initState_inv (num_steps : Nat) (aa : AminoAcidChain) :
    LoopInv num_steps (initState num_steps aa) := by
  refine ⟨Nat.zero_le _, ?_, rfl, ?_, ?_, ?_⟩
  · exact List.length_replicate _ _
  · intro i hi; exact absurd hi (Nat.not_lt_zero i)
  · intro h; exact absurd h (lt_irrefl 0)
  · intro i j _ hj; exact absurd hj (Nat.not_lt_zero j)

/-- A failed proposal does not count as a success. -/
theorem countP_isSuccess_cons_fail (rest : List MoveResult) :
    List.countP (fun e => e.isSuccess) (MoveResult.fail :: rest) =
      List.countP (fun e => e.isSuccess) rest := by
  simp [List.countP_cons, MoveResult.isSuccess]

/-- A successful proposal counts as one success. -/
theorem countP_isSuccess_cons_success (temp_x temp_y : List Int)
    (rest : List MoveResult) :
    List.countP (fun e => e.isSuccess) (MoveResult.success temp_x temp_y :: rest) =
      List.countP (fun e => e.isSuccess) rest + 1 := by
  simp [List.countP_cons, MoveResult.isSuccess]

/-- If the event stream holds at least `num_steps - step` successes, the
run drives the step counter all the way to `num_steps`. -/
theorem runLoop_step_complete (measure : List Bool → List Int → List Int → Nat)
    (num_steps : Nat) :
    ∀ (events : List MoveResult) (st : LoopState), st.step ≤ num_steps →
      num_steps - st.step ≤ events.countP (fun e => e.isSuccess) →
      (runLoop measure num_steps events st).step = num_steps := by
  intro events
  induction events with
  | nil =>
    intro st hle hcnt
    simp only [List.countP_nil] at hcnt
    show st.step = num_steps
    omega
  | cons mv rest ih =>
    intro st hle hcnt
    simp only [runLoop]
    split
    · next hg =>
      cases mv with
      | fail =>
        rw [countP_isSuccess_cons_fail] at hcnt
        exact ih st hle hcnt
      | success tx ty =>
        rw [countP_isSuccess_cons_success] at hcnt
        refine ih (loopIter measure st (.success tx ty)) ?_ ?_
        · exact (loopIter_success_fields measure st tx ty).1 ▸ hg
        · rw [(loopIter_success_fields measure st tx ty).1]
          omega
    · next hg => omega

/-! ### Concrete demonstration inputs used by the witnesses -/

/-- A two-residue all-H chain stretched out (distance 3 apart), cached
energy 8 = `measure_energy` of its own coordinates. -/
def aaDemo : AminoAcidChain :=
  { h := [true, true], x := [0, 3], y := [0, 0], prev_energy := 8 }

/-- Two valid proposals for `aaDemo`: first the chain folded to adjacency
(energy 6, strictly improving, accepted), then back to the stretched shape
(energy 8, not improving, rejected). -/
def eventsDemo : List MoveResult :=
  [.success [0, 1] [0, 0], .success [0, 3] [0, 0]]

/-! ### Claim theorems (part 2) -/

/-- C2: over any run of the loop, the recorded committed energies (the
entries of `energy_change` written so far, i.e. the cached energy after
each completed step) form a non-increasing sequence: a later entry is at
most any earlier entry. -/
theorem committed_energy_trace_nonincreasing
    (measure : List Bool → List Int → List Int → Nat)
    (num_steps : Nat) (events : List MoveResult) (aa : AminoAcidChain)
    (i j : Nat) (hij : i ≤ j)
    (hj : j < (runLoop measure num_steps events (initState num_steps aa)).step) :
    (runLoop measure num_steps events (initState num_steps aa)).energy_change.getD j 0 ≤
      (runLoop measure num_steps events (initState num_steps aa)).energy_change.getD i 0 :=
  (runLoop_inv measure num_steps events (initState num_steps aa)
    (initState_inv num_steps aa)).2.2.2.2.2 i j hij hj

/-- Witness for C2: in the concrete two-step demo run the second recorded
energy is at most the first. -/
theorem committed_energy_trace_nonincreasing_witness :
    (runLoop measure_energy 2 eventsDemo (initState 2 aaDemo)).energy_change.getD 1 0 ≤
      (runLoop measure_energy 2 eventsDemo (initState 2 aaDemo)).energy_change.getD 0 0 :=
  committed_energy_trace_nonincreasing measure_energy 2 eventsDemo aaDemo 0 1
    (by decide) (by decide)

/-- C4: when the event stream offers at least `num_steps` valid proposals,
the loop terminates with the step counter equal to `num_steps`, having
evaluated exactly `num_steps` valid candidates (one write per evaluation);
the final state it returns carries the committed chain and cached energy
as the reported result. -/
theorem loop_terminates_with_full_budget
    (measure : List Bool → List Int → List Int → Nat)
    (num_steps : Nat) (events : List MoveResult) (aa : AminoAcidChain)
    (hsucc : num_steps ≤ events.countP (fun e => e.isSuccess)) :
    (runLoop measure num_steps events (initState num_steps aa)).step = num_steps ∧
    (runLoop measure num_steps events (initState num_steps aa)).writes.length = num_steps := by
  have hstep := runLoop_step_complete measure num_steps events (initState num_steps aa)
    (Nat.zero_le _) hsucc
  have hinv := runLoop_inv measure num_steps events (initState num_steps aa)
    (initState_inv num_steps aa)
  refine ⟨hstep, ?_⟩
  rw [hinv.2.2.1, hstep, List.length_range]

/-- Witness for C4: the concrete demo run (budget 2, two valid proposals)
terminates with step counter 2 and two writes. -/
theorem loop_terminates_with_full_budget_witness :
    (runLoop measure_energy 2 eventsDemo (initState 2 aaDemo)).step = 2 ∧
    (runLoop measure_energy 2 eventsDemo (initState 2 aaDemo)).writes.length = 2 :=
  loop_terminates_with_full_budget measure_energy 2 eventsDemo aaDemo (by decide)

/-- C6 (amended): the cell-10 loop has no retry cap — an event stream of
any number of consecutive failed proposals leaves the loop state (chain,
cached energy, step counter, trace and write log) exactly as it was, and
the loop exposes no exhaustion outcome distinguishable from normal
completion: its only result is the plain loop state. -/
theorem failed_proposals_retried_unbounded
    (measure : List Bool → List Int → List Int → Nat)
    (num_steps n : Nat) (st : LoopState) :
    runLoop measure num_steps (List.replicate n MoveResult.fail) st = st :=
  runLoop_all_fail measure num_steps _ (fun _ he => List.eq_of_mem_replicate he) st

/-- Counterexample to C6 as stated: after 100 consecutive failed proposals
with budget 5, the loop state is exactly the initial one — the loop is
still at step 0 with nothing surfaced to the caller, so no bounded-attempt
exhaustion outcome exists. -/
theorem no_exhaustion_outcome_counterexample :
    runLoop measure_energy 5 (List.replicate 100 MoveResult.fail)
        (initState 5 aaDemo) = initState 5 aaDemo ∧
    (initState 5 aaDemo).step < 5 := by
  refine ⟨?_, by decide⟩
  exact runLoop_all_fail measure_energy 5 _
    (fun _ he => List.eq_of_mem_replicate he) (initState 5 aaDemo)

/-- C9: in a completed run (step counter reached `num_steps ≥ 1`), the
final cached energy equals the last entry of the `energy_change` trace and
is a lower bound for every entry — hence it is the minimum entry. -/
theorem final_energy_last_and_min
    (measure : List Bool → List Int → List Int → Nat)
    (num_steps : Nat) (events : List MoveResult) (aa : AminoAcidChain)
    (hns : 1 ≤ num_steps)
    (hdone : (runLoop measure num_steps events (initState num_steps aa)).step = num_steps) :
    (runLoop measure num_steps events (initState num_steps aa)).energy_change.length
        = num_steps ∧
    (runLoop measure num_steps events (initState num_steps aa)).energy_change.getD
        (num_steps - 1) 0 =
      (runLoop measure num_steps events (initState num_steps aa)).aa.prev_energy ∧
    ∀ i, i < num_steps →
      (runLoop measure num_steps events (initState num_steps aa)).aa.prev_energy ≤
        (runLoop measure num_steps events (initState num_steps aa)).energy_change.getD i 0 := by
  have hinv := runLoop_inv measure num_steps events (initState num_steps aa)
    (initState_inv num_steps aa)
  refine ⟨hinv.2.1, ?_, ?_⟩
  · have hlast := hinv.2.2.2.2.1 (by rw [hdone]; exact hns)
    rw [hdone] at hlast
    exact hlast
  · intro i hi
    exact hinv.2.2.2.1 i (by rw [hdone]; exact hi)

/-- Witness for C9: in the completed demo run the final energy is the last
and least recorded entry. -/
theorem final_energy_last_and_min_witness :
    (runLoop measure_energy 2 eventsDemo (initState 2 aaDemo)).energy_change.length = 2 ∧
    (runLoop measure_energy 2 eventsDemo (initState 2 aaDemo)).energy_change.getD 1 0 =
      (runLoop measure_energy 2 eventsDemo (initState 2 aaDemo)).aa.prev_energy ∧
    ∀ i, i < 2 →
      (runLoop measure_energy 2 eventsDemo (initState 2 aaDemo)).aa.prev_energy ≤
        (runLoop measure_energy 2 eventsDemo (initState 2 aaDemo)).energy_change.getD i 0 :=
  final_energy_last_and_min measure_energy 2 eventsDemo aaDemo (by decide) (by decide)

/-- C10: the loop writes `energy_change[step]` only at indices
`0, …, step - 1` in order (each exactly once, no duplicates), every
written index is below `num_steps`, and the step counter never exceeds
`num_steps` — all indexing stays in bounds. -/
theorem energy_change_writes_safe
    (measure : List Bool → List Int → List Int → Nat)
    (num_steps : Nat) (events : List MoveResult) (aa : AminoAcidChain) :
    (runLoop measure num_steps events (initState num_steps aa)).writes =
      List.range (runLoop measure num_steps events (initState num_steps aa)).step ∧
    (runLoop measure num_steps events (initState num_steps aa)).step ≤ num_steps ∧
    (runLoop measure num_steps events (initState num_steps aa)).writes.Nodup ∧
    ∀ i ∈ (runLoop measure num_steps events (initState num_steps aa)).writes,
      i < num_steps := by
  have hinv := runLoop_inv measure num_steps events (initState num_steps aa)
    (initState_inv num_steps aa)
  have h1 := hinv.1
  refine ⟨hinv.2.2.1, h1, ?_, ?_⟩
  · rw [hinv.2.2.1]; exact List.nodup_range _
  · intro i hi
    rw [hinv.2.2.1] at hi
    have := List.mem_range.mp hi
    omega

/-- Witness for C10: in the demo run the step counter stays within the
budget and the concrete index 1, which was written, is below it. -/
theorem energy_change_writes_safe_witness :
    (runLoop measure_energy 2 eventsDemo (initState 2 aaDemo)).step ≤ 2 ∧ 1 < 2 :=
  ⟨(energy_change_writes_safe measure_energy 2 eventsDemo aaDemo).2.1,
   (energy_change_writes_safe measure_energy 2 eventsDemo aaDemo).2.2.2 1 (by decide)⟩
